import Mathlib

/-!
Shallow embedding of FLTK's Xlib image-drawing subsystem
(src/drivers/Xlib/Fl_Xlib_Graphics_Driver_image.cxx) and proofs about it.

Platform configuration fixed for the embedding (a 32-bit little-endian
machine, the configuration in which `U16` is available and `U64` is not):
`WORDS_BIGENDIAN` is false, `OUTTYPE` is `U16` (so `OUTSIZE = 1` and a
16-bit store truncates modulo 2^16), and `STORETYPE` is `U32`
(so `sizeof(STORETYPE) = 4` and `INNARDS32` stores one 32-bit word per
pixel).  Machine integers are modelled as `Int`/`Nat` with explicit
wrap-around where the C code can overflow a store.
-/

namespace FltkImage

/-- WORDS_BIGENDIAN for the chosen platform configuration. -/
def WORDS_BIGENDIAN : Bool := false

/-- sizeof(STORETYPE) with STORETYPE = U32 (no U64 on this platform). -/
def STORESIZE : Nat := 4

/-- MAXBUFFER from the source: cap (in STORETYPE units) of the working buffer. -/
def MAXBUFFER : Nat := 0x40000

/-- C bitwise AND `r & m` of an int `r` with a byte-sized mask `m ≤ 255`:
on two's complement only the low 8 bits of `r` take part, and those are
`(r.emod 256)`. -/
def cAndMask (r : Int) (m : Nat) : Int := (((r.emod 256).toNat &&& m : Nat) : Int)

/-- C bitwise AND `r & ~m` of an int `r` with the complement of a byte-sized
mask: since `r & m` and `r & ~m` partition the bits of `r`,
`r & ~m = r - (r & m)`. -/
def cAndNotMask (r : Int) (m : Nat) : Int := r - cAndMask r m

/-- The upper clamp `if (r > 255) r = 255` used by the 16-bit converters. -/
def clampU (r : Int) : Int := if r > 255 then 255 else r

/-- The symmetric clamp `if (r < 0) r = 0; else if (r > 255) r = 255;`
used by the 8-bit colormap converters. -/
def clamp8 (r : Int) : Int := if r < 0 then 0 else if r > 255 then 255 else r

/-- The serpentine error-diffusion state: the static globals
`dir` and `ri, gi, bi` of the source file. -/
structure Dither where
  dir : Bool
  ri : Int
  gi : Int
  bi : Int
deriving DecidableEq, Repr

/-- Run a stateful per-pixel step over a list of pixels in scan order,
returning the outputs in scan order together with the final state. -/
def scanList {α β σ : Type} (step : σ → α → σ × β) : σ → List α → σ × List β
  | s, [] => (s, [])
  | s, a :: as =>
    let sb := step s a
    let rest := scanList step sb.1 as
    (rest.1, sb.2 :: rest.2)

/-- The serpentine wrapper shared by all error-diffusion converters: when
`dir` is set the row is traversed in reverse (`from += -delta`,
`to += -OUTSIZE`) and the direction flag is cleared, otherwise the row is
traversed forward and the flag is set.  Outputs are returned in destination
(left-to-right) order. -/
def serpentine {α : Type} (step : Int × Int × Int → α → (Int × Int × Int) × Nat)
    (d : Dither) (row : List α) : Dither × List Nat :=
  if d.dir then
    let r := scanList step (d.ri, d.gi, d.bi) row.reverse
    (⟨false, r.1.1, r.1.2.1, r.1.2.2⟩, r.2.reverse)
  else
    let r := scanList step (d.ri, d.gi, d.bi) row
    (⟨true, r.1.1, r.1.2.1, r.1.2.2⟩, r.2)

/-- The `w` pixels of a source row, as byte triples `from[i*delta + 0..2]`,
reading through a byte-array function. -/
def readRow3 (f : Int → Nat) (w : Nat) (delta : Int) : List (Nat × Nat × Nat) :=
  (List.range w).map fun (i : Nat) => (f ((i : Int) * delta), f ((i : Int) * delta + 1), f ((i : Int) * delta + 2))

/-- The `w` pixels of a source row for the mono converters: the single
byte `from[i*delta]` per pixel. -/
def readRow1 (f : Int → Nat) (w : Nat) (delta : Int) : List Nat :=
  (List.range w).map fun (i : Nat) => f ((i : Int) * delta)

/-! ### 16-bit TrueColor converters with error diffusion -/

/-- One pixel of `c565_converter`:
`r = (r&7)+from[0]; if (r>255) r = 255;` (similarly g with `&3`, b with `&7`)
then `OUTASSIGN(((r&0xf8)<<8) + ((g&0xfc)<<3) + (b>>3))`, the U16 store
truncating modulo 2^16.  `r & 7 = r.emod 8` on two's complement. -/
def c565_step (st : Int × Int × Int) (p : Nat × Nat × Nat) : (Int × Int × Int) × Nat :=
  let r := clampU (st.1.emod 8 + p.1)
  let g := clampU (st.2.1.emod 4 + p.2.1)
  let b := clampU (st.2.2.emod 8 + p.2.2)
  ((r, g, b), ((cAndMask r 0xf8) * 256 + (cAndMask g 0xfc) * 8 + b / 8).toNat % 65536)

/-- `c565_converter` (the specialized 5r6g5b layout converter). -/
def c565_converter (f : Int → Nat) (w : Nat) (delta : Int) (d : Dither) :
    Dither × List Nat :=
  serpentine c565_step d (readRow3 f w delta)

/-- One pixel of `m565_converter`:
`r = (r&7) + *from; if (r > 255) r = 255; OUTASSIGN((r>>3) * 0x841);`
(g and b accumulators are untouched). -/
def m565_step (st : Int × Int × Int) (p : Nat) : (Int × Int × Int) × Nat :=
  let r := clampU (st.1.emod 8 + p)
  ((r, st.2.1, st.2.2), ((r / 8) * 0x841).toNat % 65536)

/-- `m565_converter` (mono variant of the 5-6-5 converter). -/
def m565_converter (f : Int → Nat) (w : Nat) (delta : Int) (d : Dither) :
    Dither × List Nat :=
  serpentine m565_step d (readRow1 f w delta)

/-- One pixel of `color16_converter`, parameterized by the display's
`fl_redmask/fl_greenmask/fl_bluemask` (byte masks) and
`fl_redshift/fl_greenshift/fl_blueshift/fl_extrashift`:
`r = (r&~fl_redmask)+from[0]; if (r>255) r = 255;` (same for g, b), then
`OUTASSIGN((((r&fl_redmask)<<fl_redshift)+((g&fl_greenmask)<<fl_greenshift)+
((b&fl_bluemask)<<fl_blueshift)) >> fl_extrashift)`. -/
def color16_step (mr mg mb rs gs bs es : Nat) (st : Int × Int × Int)
    (p : Nat × Nat × Nat) : (Int × Int × Int) × Nat :=
  let r := clampU (cAndNotMask st.1 mr + p.1)
  let g := clampU (cAndNotMask st.2.1 mg + p.2.1)
  let b := clampU (cAndNotMask st.2.2 mb + p.2.2)
  ((r, g, b),
    (((cAndMask r mr) * 2 ^ rs + (cAndMask g mg) * 2 ^ gs + (cAndMask b mb) * 2 ^ bs)
      / 2 ^ es).toNat % 65536)

/-- `color16_converter` (generic masked-shift 16-bit converter with diffusion). -/
def color16_converter (mr mg mb rs gs bs es : Nat) (f : Int → Nat) (w : Nat)
    (delta : Int) (d : Dither) : Dither × List Nat :=
  serpentine (color16_step mr mg mb rs gs bs es) d (readRow3 f w delta)

/-- One pixel of `mono16_converter`:
`uchar mask = fl_redmask & fl_greenmask & fl_bluemask;`
`r = (r&~mask) + *from; if (r > 255) r = 255; uchar m = r&mask;`
`OUTASSIGN(((m<<fl_redshift)+(m<<fl_greenshift)+(m<<fl_blueshift)) >> fl_extrashift)`. -/
def mono16_step (mr mg mb rs gs bs es : Nat) (st : Int × Int × Int)
    (p : Nat) : (Int × Int × Int) × Nat :=
  let mask := mr &&& mg &&& mb
  let r := clampU (cAndNotMask st.1 mask + p)
  let m := cAndMask r mask
  ((r, st.2.1, st.2.2),
    ((m * 2 ^ rs + m * 2 ^ gs + m * 2 ^ bs) / 2 ^ es).toNat % 65536)

/-- `mono16_converter` (mono variant of the generic 16-bit converter). -/
def mono16_converter (mr mg mb rs gs bs es : Nat) (f : Int → Nat) (w : Nat)
    (delta : Int) (d : Dither) : Dither × List Nat :=
  serpentine (mono16_step mr mg mb rs gs bs es) d (readRow1 f w delta)

/-! ### 8-bit colormap converter with error diffusion

`color8_converter` resolves each dithered sample through `fl_color_cube`
and the `fl_xmap` palette, which live in `fl_color.cxx` / `Enumerations.H`
(repository code not under `src/`). -/

/-- Modelled from the spec: the palette lookup of the 8-bit converter
(`fl_color_cube` / `fl_xmap` in `fl_color.cxx`, not under `src/`).  The spec
says the converter performs "nearest-color lookup in a precomputed color
cube indexed by quantized (r,g,b)".  FLTK's cube has `FL_NUM_RED = 5`,
`FL_NUM_GREEN = 8`, `FL_NUM_BLUE = 5` levels; the color stored for cube
index `i` out of `n` levels is `i * 255 / (n - 1)`. -/
def cubeComponent (i n : Nat) : Nat := i * 255 / (n - 1)

/-- FL_NUM_RED (number of red levels in the color cube). -/
def FL_NUM_RED : Nat := 5

/-- FL_NUM_GREEN (number of green levels in the color cube). -/
def FL_NUM_GREEN : Nat := 8

/-- FL_NUM_BLUE (number of blue levels in the color cube). -/
def FL_NUM_BLUE : Nat := 5

/-- One pixel of `color8_converter`:
`r += from[0]; if (r < 0) r = 0; else if (r > 255) r = 255;` (same g, b);
`Fl_Color i = fl_color_cube(r*FL_NUM_RED/256, g*FL_NUM_GREEN/256, b*FL_NUM_BLUE/256);`
then `r -= xmap.r; g -= xmap.g; b -= xmap.b; *to = uchar(xmap.pixel);`.
The palette color components `xmap.r/g/b` are modelled from the spec as the
color-cube entry for the quantized indices (see `cubeComponent`); the
emitted pixel value (an opaque palette handle) is modelled as the packed
cube index. -/
def color8_step (st : Int × Int × Int) (p : Nat × Nat × Nat) : (Int × Int × Int) × Nat :=
  let r := clamp8 (st.1 + p.1)
  let g := clamp8 (st.2.1 + p.2.1)
  let b := clamp8 (st.2.2 + p.2.2)
  let ir := (r.toNat * FL_NUM_RED) / 256
  let ig := (g.toNat * FL_NUM_GREEN) / 256
  let ib := (b.toNat * FL_NUM_BLUE) / 256
  let xr := cubeComponent ir FL_NUM_RED
  let xg := cubeComponent ig FL_NUM_GREEN
  let xb := cubeComponent ib FL_NUM_BLUE
  ((r - xr, g - xg, b - xb), (ib * FL_NUM_RED + ir) * FL_NUM_GREEN + ig)

/-- `color8_converter` (palette converter with error diffusion; palette
lookup modelled from the spec, see `color8_step`). -/
def color8_converter (f : Int → Nat) (w : Nat) (delta : Int) (d : Dither) :
    Dither × List Nat :=
  serpentine color8_step d (readRow3 f w delta)

/-- One pixel of `mono8_converter`: as `color8_step` but all three
accumulators receive the same source byte `from[0]`. -/
def mono8_step (st : Int × Int × Int) (p : Nat) : (Int × Int × Int) × Nat :=
  color8_step st (p, p, p)

/-- `mono8_converter` (mono variant of the palette converter). -/
def mono8_converter (f : Int → Nat) (w : Nat) (delta : Int) (d : Dither) :
    Dither × List Nat :=
  serpentine mono8_step d (readRow1 f w delta)

/-! ### 24-bit TrueColor converters (stateless) -/

/-- `rgb_converter`: `int d = delta-3; for (; w--; from += d) { *to++ = *from++;
*to++ = *from++; *to++ = *from++; }` — pixel `i` starts at byte offset
`i*delta` (each iteration advances `from` by `3 + (delta-3) = delta`). -/
def rgb_converter (f : Int → Nat) (w : Nat) (delta : Int) : List Nat :=
  (List.range w).flatMap fun (i : Nat) => [f ((i : Int) * delta), f ((i : Int) * delta + 1), f ((i : Int) * delta + 2)]

/-- `bgr_converter`: emits `from[2], from[1], from[0]` per pixel. -/
def bgr_converter (f : Int → Nat) (w : Nat) (delta : Int) : List Nat :=
  (List.range w).flatMap fun (i : Nat) => [f ((i : Int) * delta + 2), f ((i : Int) * delta + 1), f ((i : Int) * delta)]

/-- `rrr_converter`: replicates the single source byte three times. -/
def rrr_converter (f : Int → Nat) (w : Nat) (delta : Int) : List Nat :=
  (List.range w).flatMap fun (i : Nat) => [f ((i : Int) * delta), f ((i : Int) * delta), f ((i : Int) * delta)]

/-! ### 32-bit TrueColor converters (stateless)

With `STORETYPE = U32`, `INNARDS32(f)` is
`U32 *t = (U32*)to; for (; w--; from += delta) *t++ = f;` — one 32-bit word
per pixel, the store truncating modulo 2^32. -/

/-- The per-pixel word of `xrgb_converter`: `(from[0]<<16)+(from[1]<<8)+(from[2])`. -/
def xrgb_word (r g b : Nat) : Nat := (r * 2 ^ 16 + g * 2 ^ 8 + b) % 2 ^ 32

/-- `xrgb_converter`. -/
def xrgb_converter (f : Int → Nat) (w : Nat) (delta : Int) : List Nat :=
  (List.range w).map fun (i : Nat) => xrgb_word (f ((i : Int) * delta)) (f ((i : Int) * delta + 1)) (f ((i : Int) * delta + 2))

/-- The per-pixel word of `argb_premul_converter`:
`(unsigned(from[3]) << 24) + (((from[0] * from[3]) / 255) << 16) +
(((from[1] * from[3]) / 255) << 8) + ((from[2] * from[3]) / 255)`. -/
def argb_premul_word (r g b a : Nat) : Nat :=
  (a * 2 ^ 24 + (r * a / 255) * 2 ^ 16 + (g * a / 255) * 2 ^ 8 + b * a / 255) % 2 ^ 32

/-- `argb_premul_converter`. -/
def argb_premul_converter (f : Int → Nat) (w : Nat) (delta : Int) : List Nat :=
  (List.range w).map fun (i : Nat) =>
    argb_premul_word (f ((i : Int) * delta)) (f ((i : Int) * delta + 1)) (f ((i : Int) * delta + 2)) (f ((i : Int) * delta + 3))

/-- `rgbx_converter`: `(unsigned(from[0])<<24)+(from[1]<<16)+(from[2]<<8)`. -/
def rgbx_converter (f : Int → Nat) (w : Nat) (delta : Int) : List Nat :=
  (List.range w).map fun (i : Nat) =>
    (f ((i : Int) * delta) * 2 ^ 24 + f ((i : Int) * delta + 1) * 2 ^ 16 + f ((i : Int) * delta + 2) * 2 ^ 8) % 2 ^ 32

/-- `xbgr_converter`: `(from[0])+(from[1]<<8)+(from[2]<<16)`. -/
def xbgr_converter (f : Int → Nat) (w : Nat) (delta : Int) : List Nat :=
  (List.range w).map fun (i : Nat) =>
    (f ((i : Int) * delta) + f ((i : Int) * delta + 1) * 2 ^ 8 + f ((i : Int) * delta + 2) * 2 ^ 16) % 2 ^ 32

/-- `bgrx_converter`: `(from[0]<<8)+(from[1]<<16)+(unsigned(from[2])<<24)`. -/
def bgrx_converter (f : Int → Nat) (w : Nat) (delta : Int) : List Nat :=
  (List.range w).map fun (i : Nat) =>
    (f ((i : Int) * delta) * 2 ^ 8 + f ((i : Int) * delta + 1) * 2 ^ 16 + f ((i : Int) * delta + 2) * 2 ^ 24) % 2 ^ 32

/-- `rrrx_converter`: `unsigned(*from) * 0x1010100U`. -/
def rrrx_converter (f : Int → Nat) (w : Nat) (delta : Int) : List Nat :=
  (List.range w).map fun (i : Nat) => (f ((i : Int) * delta) * 0x1010100) % 2 ^ 32

/-- `xrrr_converter`: `*from * 0x10101U`. -/
def xrrr_converter (f : Int → Nat) (w : Nat) (delta : Int) : List Nat :=
  (List.range w).map fun (i : Nat) => (f ((i : Int) * delta) * 0x10101) % 2 ^ 32

/-- `color32_converter`:
`(from[0]<<fl_redshift)+(from[1]<<fl_greenshift)+(from[2]<<fl_blueshift)`. -/
def color32_converter (rs gs bs : Nat) (f : Int → Nat) (w : Nat) (delta : Int) : List Nat :=
  (List.range w).map fun (i : Nat) =>
    (f ((i : Int) * delta) * 2 ^ rs + f ((i : Int) * delta + 1) * 2 ^ gs + f ((i : Int) * delta + 2) * 2 ^ bs) % 2 ^ 32

/-- `mono32_converter`. -/
def mono32_converter (rs gs bs : Nat) (f : Int → Nat) (w : Nat) (delta : Int) : List Nat :=
  (List.range w).map fun (i : Nat) =>
    (f ((i : Int) * delta) * 2 ^ rs + f ((i : Int) * delta) * 2 ^ gs + f ((i : Int) * delta) * 2 ^ bs) % 2 ^ 32

/-! ### Converter selection (`figure_out_visual`) -/

/-- Identifier of a converter routine from the file's fixed catalog
(the function pointers `converter` / `mono_converter` point to one of these). -/
inductive ConvId where
  | color8 | mono8
  | color16 | mono16
  | c565 | m565
  | rgb | bgr | rrr
  | rgbx | xbgr | xrgb | bgrx | rrrx | xrrr
  | color32 | mono32
  | argb_premul
deriving DecidableEq, Repr

/-- What the subsystem queries from the X display: the visual's depth, the
matching pixmap format's bits_per_pixel and scanline_pad,
`ImageByteOrder(fl_display)`, `fl_visual->red_mask`, and the channel
shifts/masks `fl_redshift` etc. computed by `fl_xpixel` in `fl_color.cxx`. -/
structure Visual where
  depth : Nat
  bits_per_pixel : Nat
  scanline_pad : Nat
  byte_order : Bool
  red_mask : Nat
  redshift : Nat
  greenshift : Nat
  blueshift : Nat
  extrashift : Nat
  redmask : Nat
  greenmask : Nat
  bluemask : Nat
deriving DecidableEq, Repr

/-- The format descriptor state computed once by `figure_out_visual`:
`bytes_per_pixel`, the scanline alignment unit `n` (the code stores
`scanline_add = n-1` and `scanline_mask = -n`), the selected converter
pair, and the `xi` template fields it sets. -/
structure Fmt where
  bytes_per_pixel : Nat
  scanline_n : Nat
  conv : ConvId
  mono_conv : ConvId
  xi_depth : Nat
  xi_bits : Nat
  xi_byte_order : Bool
deriving DecidableEq, Repr

/-- `figure_out_visual`: selects the converter pair and fills the format
state from the display query; `none` models `Fl::fatal` (unsupported
display, process-terminating).  `USE_COLORMAP` is enabled, as in the
standard X11 build. -/
def figure_out_visual (v : Visual) : Option Fmt :=
  let bpp := if v.bits_per_pixel % 8 ≠ 0 then 0 else v.bits_per_pixel / 8
  let n0 := v.scanline_pad / 8
  if v.scanline_pad % 8 ≠ 0 ∨ n0 &&& (n0 - 1) ≠ 0 then none
  else
    let n := max n0 STORESIZE
    if bpp = 1 then
      some ⟨1, n, ConvId.color8, ConvId.mono8, v.depth, v.bits_per_pixel, v.byte_order⟩
    else if v.red_mask = 0 then none
    else
      let rs : Int := v.redshift
      let gs : Int := v.greenshift
      let bs : Int := v.blueshift
      if bpp = 2 then
        -- xi.byte_order = WORDS_BIGENDIAN (the U16 branch)
        if rs = 11 ∧ gs = 6 ∧ bs = 0 ∧ v.extrashift = 3 then
          some ⟨2, n, ConvId.c565, ConvId.m565, v.depth, v.bits_per_pixel, WORDS_BIGENDIAN⟩
        else
          some ⟨2, n, ConvId.color16, ConvId.mono16, v.depth, v.bits_per_pixel, WORDS_BIGENDIAN⟩
      else if bpp = 3 then
        let rs := if v.byte_order then 16 - rs else rs
        let gs := if v.byte_order then 16 - gs else gs
        let bs := if v.byte_order then 16 - bs else bs
        if rs = 0 ∧ gs = 8 ∧ bs = 16 then
          some ⟨3, n, ConvId.rgb, ConvId.rrr, v.depth, v.bits_per_pixel, v.byte_order⟩
        else if rs = 16 ∧ gs = 8 ∧ bs = 0 then
          some ⟨3, n, ConvId.bgr, ConvId.rrr, v.depth, v.bits_per_pixel, v.byte_order⟩
        else none
      else if bpp = 4 then
        let adj := v.byte_order ≠ WORDS_BIGENDIAN
        let rs := if adj then 24 - rs else rs
        let gs := if adj then 24 - gs else gs
        let bs := if adj then 24 - bs else bs
        if rs = 0 ∧ gs = 8 ∧ bs = 16 then
          some ⟨4, n, ConvId.xbgr, ConvId.xrrr, v.depth, v.bits_per_pixel, v.byte_order⟩
        else if rs = 24 ∧ gs = 16 ∧ bs = 8 then
          some ⟨4, n, ConvId.rgbx, ConvId.rrrx, v.depth, v.bits_per_pixel, v.byte_order⟩
        else if rs = 8 ∧ gs = 16 ∧ bs = 24 then
          some ⟨4, n, ConvId.bgrx, ConvId.rrrx, v.depth, v.bits_per_pixel, v.byte_order⟩
        else if rs = 16 ∧ gs = 8 ∧ bs = 0 then
          some ⟨4, n, ConvId.xrgb, ConvId.xrrr, v.depth, v.bits_per_pixel, v.byte_order⟩
        else
          some ⟨4, n, ConvId.color32, ConvId.mono32, v.depth, v.bits_per_pixel, WORDS_BIGENDIAN⟩
      else none

/-! ### The streaming blit engine (`innards`) -/

/-- A clip rectangle (the bounding box the visible region reduces to). -/
structure Rect where
  x : Int
  y : Int
  w : Int
  h : Int
deriving DecidableEq, Repr

/-- Modelled from the spec: `fl_clip_box` (in `fl_rect.cxx`, not under
`src/`) "intersect[s] the requested rectangle with the current visible clip
area"; the clip area is modelled as the rectangle `c`.  Returns the
intersection origin and size `(dx, dy, w, h)` as the source does. -/
def clip_box (X Y W H : Int) (c : Rect) : Int × Int × Int × Int :=
  let x1 := max X c.x
  let y1 := max Y c.y
  let x2 := min (X + W) (c.x + c.w)
  let y2 := min (Y + H) (c.y + c.h)
  (x1, y1, x2 - x1, y2 - y1)

/-- The process-wide mutable state the engine touches: the cached format
descriptor (`bytes_per_pixel = 0` means `figure_out_visual` has not run),
the `xi` template fields, the working-buffer high-water mark, and the
dither state. -/
structure GState where
  bytes_per_pixel : Nat
  scanline_n : Nat
  conv : ConvId
  mono_conv : ConvId
  xi_depth : Nat
  xi_bits : Nat
  xi_byte_order : Bool
  xi_width : Int
  xi_height : Int
  buffer_size : Nat
  dither : Dither
deriving DecidableEq, Repr

/-- Install the result of `figure_out_visual` into the global state. -/
def applyFmt (g : GState) (f : Fmt) : GState :=
  { g with
    bytes_per_pixel := f.bytes_per_pixel
    scanline_n := f.scanline_n
    conv := f.conv
    mono_conv := f.mono_conv
    xi_depth := f.xi_depth
    xi_bits := f.xi_bits
    xi_byte_order := f.xi_byte_order }

/-- Observable actions of one `innards` call: a row conversion through the
selected converter, or an `XPutImage` submission of a chunk of `k` rows
whose first destination row is `X+dx, Y+dy+start`. -/
inductive Ev where
  | convRow (c : ConvId) (row : Nat)
  | putImage (x y : Int) (w k : Nat)
deriving DecidableEq, Repr

/-- The chunk sizes produced by the blocking loop
`for (int j=0; j<h; ) { for (k = 0; j<h && k<blocking; k++, j++) ...; XPutImage(...); }`:
`min blocking h` rows per chunk until `h` rows are covered.  When
`blocking = 0` the source loop never terminates; the model returns `[]`
there and the theorems require `blocking ≥ 1` (one destination row always
fits in the working buffer for any real X11 geometry). -/
def chunkSizesGo (blocking : Nat) : Nat → Nat → List Nat
  | 0, _ => []
  | fuel + 1, h =>
    if h = 0 then []
    else if blocking = 0 then []
    else min blocking h :: chunkSizesGo blocking fuel (h - min blocking h)

/-- The chunk sizes, with a fuel of `h` (each chunk covers at least one
row, so `h` steps always suffice). -/
def chunkSizes (blocking h : Nat) : List Nat := chunkSizesGo blocking h h

/-- Pair each chunk size with its starting row (`j - k` at the moment of
the chunk's `XPutImage`). -/
def chunkStartsFrom (start : Nat) : List Nat → List (Nat × Nat)
  | [] => []
  | k :: ks => (start, k) :: chunkStartsFrom (start + k) ks

/-- The `(start row, row count)` of each `XPutImage` call of the blocking loop. -/
def chunkPuts (blocking h : Nat) : List (Nat × Nat) :=
  chunkStartsFrom 0 (chunkSizes blocking h)

/-- The event trace of the general (conversion) path: for each chunk, its
rows are converted in order, then the chunk is submitted at vertical
offset `Y+dy+start`. -/
def generalEvents (c : ConvId) (x y : Int) (w : Nat) (chunks : List (Nat × Nat)) : List Ev :=
  chunks.flatMap fun sk =>
    ((List.range sk.2).map fun r => Ev.convRow c (sk.1 + r)) ++
      [Ev.putImage x (y + sk.1) w sk.2]

/-- Advance the dither state by one call of the converter `c` on a source
row read through `f` (stateless converters leave it unchanged).  The
16-bit generic converters take the display's channel masks/shifts from `v`. -/
def runConvDither (c : ConvId) (v : Visual) (f : Int → Nat) (w : Nat) (delta : Int)
    (d : Dither) : Dither :=
  match c with
  | ConvId.color8 => (color8_converter f w delta d).1
  | ConvId.mono8 => (mono8_converter f w delta d).1
  | ConvId.color16 =>
    (color16_converter v.redmask v.greenmask v.bluemask v.redshift v.greenshift
      v.blueshift v.extrashift f w delta d).1
  | ConvId.mono16 =>
    (mono16_converter v.redmask v.greenmask v.bluemask v.redshift v.greenshift
      v.blueshift v.extrashift f w delta d).1
  | ConvId.c565 => (c565_converter f w delta d).1
  | ConvId.m565 => (m565_converter f w delta d).1
  | _ => d

/-- Advance the dither state over source rows `0..h-1` in order (rows are
converted in this order regardless of chunk boundaries); `rowf j` is the
byte array row `j` is read from. -/
def runRows (c : ConvId) (v : Visual) (rowf : Nat → Int → Nat) (w : Nat) (delta : Int)
    (d : Dither) : Nat → Dither
  | 0 => d
  | h + 1 => runConvDither c v (rowf h) w delta (runRows c v rowf w delta d h)

/-- Restore of the format fields overridden for alpha mode
(`bytes_per_pixel = oldbpp; xi.depth = fl_visual->depth;
xi.bits_per_pixel = oldbpp * 8;`). -/
def restoreAlpha (alpha : Bool) (oldbpp : Nat) (v : Visual) (g : GState) : GState :=
  if alpha then
    { g with bytes_per_pixel := oldbpp, xi_depth := v.depth, xi_bits := oldbpp * 8 }
  else g

/-- The per-row source bytes seen by the converter inside the chunk loop:
in buffer mode row `j` of the clipped image starts at
`buf + delta*dx + linedelta*dy + j*linedelta`; in callback mode it is
whatever `cb(userdata, dx, dy+j, w, linebuf)` fills the line buffer with
(the callback is modelled as a pure row producer). -/
def sourceRow (buf : Option (Int → Nat)) (cb : Option (Int → Int → Nat → Int → Nat))
    (delta linedelta : Int) (dx dy : Int) (w : Nat) : Nat → Int → Nat :=
  match buf, cb with
  | some b, _ => fun j off => b (delta * dx + linedelta * dy + j * linedelta + off)
  | none, some c => fun j off => c dx (dy + j) w off
  | none, none => fun _ _ => 0

/-- `innards`: the streaming blit engine.  Returns the updated shared state
and the event trace, or `none` when the call cannot complete: `Fl::fatal`
inside the lazy `figure_out_visual`, or the call of a null callback (a
null `buf` together with a null `cb` reaches `cb(...)` in the source —
undefined behavior).  Pointer-valued scratch fields (`xi.data`,
`xi.bytes_per_line`, the GC handles) are not tracked.  `v` is what the
display would answer if `figure_out_visual` runs; `clipr` is the visible
region for `clip_box`. -/
def innards (g0 : GState) (v : Visual) (clipr : Rect) (buf : Option (Int → Nat))
    (X Y W H : Int) (delta linedelta0 : Int) (mono : Bool)
    (cb : Option (Int → Int → Nat → Int → Nat)) (alpha : Bool) :
    Option (GState × List Ev) :=
  let linedelta := if linedelta0 = 0 then W * |delta| else linedelta0
  let q := clip_box X Y W H clipr
  if q.2.2.1 ≤ 0 ∨ q.2.2.2 ≤ 0 then some (g0, [])
  else
    let dx := q.1 - X
    let dy := q.2.1 - Y
    let w := q.2.2.1.toNat
    let h := q.2.2.2.toNat
    match (if g0.bytes_per_pixel = 0 then (figure_out_visual v).map (applyFmt g0)
           else some g0) with
    | none => none
    | some g1 =>
      let oldbpp := g1.bytes_per_pixel
      let g2 := { g1 with xi_width := (w : Int), xi_height := (h : Int) }
      let cid0 := if mono then g2.mono_conv else g2.conv
      let bpp := if alpha then 4 else g2.bytes_per_pixel
      let cid := if alpha then ConvId.argb_premul else cid0
      let g3 := if alpha then { g2 with bytes_per_pixel := 4, xi_depth := 32, xi_bits := 32 }
                else g2
      if buf.isSome ∧ cid = ConvId.rgb ∧ delta = 3 ∧ linedelta.emod g3.scanline_n = 0 then
        -- fast path: xi.data is pointed at buf+delta*dx+linedelta*dy and
        -- xi.bytes_per_line at linedelta; nothing further happens
        some (restoreAlpha alpha oldbpp v g3, [])
      else if buf.isNone ∧ cb.isNone then none
      else
        let linesize := ((w * bpp + (g3.scanline_n - 1)) / g3.scanline_n * g3.scanline_n)
          / STORESIZE
        let blocking := if linesize * h > MAXBUFFER then MAXBUFFER / linesize else h
        let size := min (linesize * h) MAXBUFFER
        let g4 := if size > g3.buffer_size then { g3 with buffer_size := size } else g3
        let rowf := sourceRow buf cb delta linedelta dx dy w
        let dith := runRows cid v rowf w delta g4.dither h
        let evs := generalEvents cid (X + dx) (Y + dy) w (chunkPuts blocking h)
        some (restoreAlpha alpha oldbpp v { g4 with dither := dith }, evs)

/-! ### Public draw_image entry points -/

/-- FL_IMAGE_WITH_ALPHA.  Modelled from the spec: the flag is defined in
`FL/fl_draw.H` (repository code not under `src/`), "an alpha channel flag
encoded in the channel-count parameter"; its FLTK value is `0x40000000`. -/
def FL_IMAGE_WITH_ALPHA : Nat := 0x40000000

/-- Reinterpret the low 32 bits as a signed 32-bit value. -/
def toSigned32 (n : Nat) : Int := if n < 2 ^ 31 then (n : Int) else (n : Int) - 2 ^ 32

/-- C's `d ^ m` on a 32-bit two's-complement int `d` and a constant `m`:
xor of the 32-bit representations, read back as signed. -/
def cXor32 (d : Int) (m : Nat) : Int := toSigned32 ((d.emod (2 ^ 32)).toNat ^^^ m)

/-- The argument decoding shared by both `Fl_Xlib_Graphics_Driver::draw_image`
overloads:
`const bool alpha = !!(abs(d) & FL_IMAGE_WITH_ALPHA);`
`if (alpha) d ^= FL_IMAGE_WITH_ALPHA;`
`const int mono = (d>-3 && d<3);`
Returns `(alpha, stripped d, mono)`. -/
def draw_image_args (d : Int) : Bool × Int × Bool :=
  let alpha := decide (d.natAbs &&& FL_IMAGE_WITH_ALPHA ≠ 0)
  let d1 := if alpha then cXor32 d FL_IMAGE_WITH_ALPHA else d
  (alpha, d1, decide (-3 < d1 ∧ d1 < 3))

/-- `draw_image(const uchar* buf, x, y, w, h, d, l)`. -/
def draw_image_buf (g : GState) (v : Visual) (clipr : Rect) (b : Int → Nat)
    (x y w h : Int) (d l : Int) : Option (GState × List Ev) :=
  let a := draw_image_args d
  innards g v clipr (some b) x y w h a.2.1 l a.2.2 none a.1

/-- `draw_image(Fl_Draw_Image_Cb cb, data, x, y, w, h, d)`. -/
def draw_image_cb (g : GState) (v : Visual) (clipr : Rect)
    (c : Int → Int → Nat → Int → Nat) (x y w h : Int) (d : Int) :
    Option (GState × List Ev) :=
  let a := draw_image_args d
  innards g v clipr none x y w h a.2.1 0 a.2.2 (some c) a.1

/-! ### The manual alpha-blend compositing helper (`alpha_blend`) -/

/-- One blended channel: `(src_channel * src_alpha + dst_channel * dsta) >> 8`
with `dsta = 255 - srca`, stored into a `uchar`. -/
def blendByte (s a dc : Nat) : Nat := (s * a + dc * (255 - a)) / 256 % 256

/-- One row of the RGBA-over-RGB loop: reads `srcr,srcg,srcb,srca` at the
running source offset (advancing 4 per pixel), the destination pixel at the
running destination offset (advancing 3 per pixel), and emits the three
blended bytes per pixel. -/
def ab4Row (src dst : Int → Nat) : Nat → Int → Int → List Nat
  | 0, _, _ => []
  | n + 1, so, t =>
    blendByte (src so) (src (so + 3)) (dst t) ::
    blendByte (src (so + 1)) (src (so + 3)) (dst (t + 1)) ::
    blendByte (src (so + 2)) (src (so + 3)) (dst (t + 2)) ::
    ab4Row src dst n (so + 4) (t + 3)

/-- The RGBA-over-RGB double loop: after each row the source pointer
additionally advances by `srcskip = ld - d*W`. -/
def ab4 (src dst : Int → Nat) (W : Nat) (skip : Int) : Nat → Int → Int → List Nat
  | 0, _, _ => []
  | m + 1, so, t => ab4Row src dst W so t ++ ab4 src dst W skip m (so + 4 * W + skip) (t + 3 * W)

/-- One row of the grayscale+alpha-over-RGB loop: reads `srcg, srca`
(advancing 2 per pixel) and blends the single intensity byte into all
three destination channels. -/
def ab2Row (src dst : Int → Nat) : Nat → Int → Int → List Nat
  | 0, _, _ => []
  | n + 1, so, t =>
    blendByte (src so) (src (so + 1)) (dst t) ::
    blendByte (src so) (src (so + 1)) (dst (t + 1)) ::
    blendByte (src so) (src (so + 1)) (dst (t + 2)) ::
    ab2Row src dst n (so + 2) (t + 3)

/-- The grayscale+alpha double loop. -/
def ab2 (src dst : Int → Nat) (W : Nat) (skip : Int) : Nat → Int → Int → List Nat
  | 0, _, _ => []
  | m + 1, so, t => ab2Row src dst W so t ++ ab2 src dst W skip m (so + 2 * W + skip) (t + 3 * W)

/-- `alpha_blend` for a 4-channel (RGBA) image: `ld = img->ld()`, defaulted
to `img->w() * img->d()`; the source walk starts at
`cy * ld + cx * img->d()` with `srcskip = ld - img->d() * W`; `dst` holds
the read-back window pixels (3 bytes per pixel, row-major); the result is
the blended buffer handed to `fl_draw_image(dst, X, Y, W, H, 3, 0)`. -/
def alpha_blend4 (src : Int → Nat) (imgw : Nat) (ld0 : Int) (cx cy : Int)
    (W H : Nat) (dst : Int → Nat) : List Nat :=
  let ld := if ld0 = 0 then (imgw * 4 : Int) else ld0
  ab4 src dst W (ld - 4 * W) H (cy * ld + cx * 4) 0

/-- `alpha_blend` for a 2-channel (grayscale+alpha) image. -/
def alpha_blend2 (src : Int → Nat) (imgw : Nat) (ld0 : Int) (cx cy : Int)
    (W H : Nat) (dst : Int → Nat) : List Nat :=
  let ld := if ld0 = 0 then (imgw * 2 : Int) else ld0
  ab2 src dst W (ld - 2 * W) H (cy * ld + cx * 2) 0

/-! ### Shared concrete fixtures and helper lemmas -/

/-- A 16-bit 5-6-5 display: depth 16, 16 bits per pixel, scanline pad 32,
LSB byte order, red mask `0xf800`, shifts `(11, 6, 0)` with extrashift 3 and
channel byte masks `(0xf8, 0xfc, 0xf8)`. -/
def v565 : Visual := ⟨16, 16, 32, false, 0xf800, 11, 6, 0, 3, 0xf8, 0xfc, 0xf8⟩

/-- The global state after `figure_out_visual` has run on the `v565`
display (dither state zero). -/
def gInit565 : GState :=
  ⟨2, 4, ConvId.c565, ConvId.m565, 16, 16, false, 0, 0, 0, ⟨false, 0, 0, 0⟩⟩

/-- A clip region that covers everything the tests draw. -/
def clipAll : Rect := ⟨0, 0, 100, 100⟩

/-- An error-accumulator value within the byte range `[0, 255]`. -/
abbrev inByte (x : Int) : Prop := 0 ≤ x ∧ x ≤ 255

/-- All three components of an `(r, g, b)` accumulator triple in `[0, 255]`. -/
abbrev range3 (st : Int × Int × Int) : Prop := inByte st.1 ∧ inByte st.2.1 ∧ inByte st.2.2

/-- The saved dither state `ri, gi, bi` all in `[0, 255]`. -/
abbrev ditherInRange (d : Dither) : Prop := inByte d.ri ∧ inByte d.gi ∧ inByte d.bi

/-- A sequence of converter calls (each with its own source row, width and
stride) threading the shared dither state, as successive `draw` calls and
successive rows of one image do. -/
def convCalls (conv : (Int → Nat) → Nat → Int → Dither → Dither × List Nat)
    (calls : List ((Int → Nat) × Nat × Int)) (d : Dither) : Dither :=
  calls.foldl (fun s c => (conv c.1 c.2.1 c.2.2 s).1) d

/-- A 24-bit TrueColor display with red-low/blue-high channel order
(the layout selecting `rgb_converter`). -/
def vRGB : Visual := ⟨24, 24, 32, false, 0xff0000, 0, 8, 16, 0, 0xff, 0xff, 0xff⟩
/-- The global state after `figure_out_visual` on the `vRGB` display. -/
def gInitRGB : GState := ⟨3, 4, ConvId.rgb, ConvId.rrr, 24, 24, false, 0, 0, 0, ⟨false, 0, 0, 0⟩⟩

/-- The blit coordinates of an event, when it is an `XPutImage`. -/
def putOf : Ev → Option (Int × Int × Nat × Nat)
  | Ev.putImage x y w k => some (x, y, w, k)
  | _ => none

/-- A clip region large enough for the chunking witness. -/
def clipBig : Rect := ⟨0, 0, 400000, 10⟩

/-- Indexing a mapped range: element `j` of `(range w).map g` is `g j`. -/
theorem getD_map_range {α : Type} (g : Nat → α) (w j : Nat) (d : α) (h : j < w) :
    ((List.range w).map g).getD j d = g j := by
  rw [List.getD_eq_getElem?_getD]
  simp [List.getElem?_range, h]

/-! ### Claim C1 -/

/-- Claim C1: on a 16-bit 5-6-5 display (redshift 11, greenshift 6,
blueshift 0, extrashift 3) the selected mono converter is `m565_converter`,
and converting a 10-pixel row of grayscale bytes 128 with the dither state
initially zero produces exactly 10 destination 16-bit words, each equal to
`(128>>3)*0x841`. -/
theorem claim_C1 :
    (figure_out_visual v565).map Fmt.mono_conv = some ConvId.m565 ∧
    (m565_converter (fun _ => 128) 10 1 ⟨false, 0, 0, 0⟩).2 =
      List.replicate 10 ((128 >>> 3) * 0x841) := ⟨by decide, by decide⟩

/-! ### Claim C2 -/

/-- Claim C2: each output word of `argb_premul_converter` carries the
pixel's alpha byte in its top byte and `(channel * alpha) / 255` in the
three lower bytes; for `alpha = 0` the three color bytes are 0 whatever
the input color, and for `alpha = 255` the low 24 bits coincide with the
plain `xrgb_converter` conversion of the same pixel. -/
theorem claim_C2 (f : Int → Nat) (w : Nat) (delta : Int) (j : Nat)
    (hb : ∀ i, f i < 256) (hj : j < w) :
    ((argb_premul_converter f w delta).getD j 0) / 2 ^ 24 = f (j * delta + 3) ∧
    ((argb_premul_converter f w delta).getD j 0) / 2 ^ 16 % 256 =
      f (j * delta) * f (j * delta + 3) / 255 ∧
    ((argb_premul_converter f w delta).getD j 0) / 2 ^ 8 % 256 =
      f (j * delta + 1) * f (j * delta + 3) / 255 ∧
    ((argb_premul_converter f w delta).getD j 0) % 256 =
      f (j * delta + 2) * f (j * delta + 3) / 255 ∧
    (f (j * delta + 3) = 0 → (argb_premul_converter f w delta).getD j 0 % 2 ^ 24 = 0) ∧
    (f (j * delta + 3) = 255 →
      (argb_premul_converter f w delta).getD j 0 % 2 ^ 24 =
        (xrgb_converter f w delta).getD j 0) := by
  have h1 : (argb_premul_converter f w delta).getD j 0 =
      argb_premul_word (f (j * delta)) (f (j * delta + 1)) (f (j * delta + 2))
        (f (j * delta + 3)) := by
    unfold argb_premul_converter
    exact getD_map_range _ w j 0 hj
  have h2 : (xrgb_converter f w delta).getD j 0 =
      xrgb_word (f (j * delta)) (f (j * delta + 1)) (f (j * delta + 2)) := by
    unfold xrgb_converter
    exact getD_map_range _ w j 0 hj
  rw [h1, h2]
  set r := f (j * delta) with hr
  set g := f (j * delta + 1) with hg
  set b := f (j * delta + 2) with hbv
  set a := f (j * delta + 3) with ha
  have hrb : r < 256 := hb _
  have hgb : g < 256 := hb _
  have hbB : b < 256 := hb _
  have hab : a < 256 := hb _
  have p1le : r * a / 255 ≤ 255 := by
    calc r * a / 255 ≤ 255 * 255 / 255 :=
          Nat.div_le_div_right (Nat.mul_le_mul (by omega) (by omega))
      _ = 255 := by norm_num
  have p2le : g * a / 255 ≤ 255 := by
    calc g * a / 255 ≤ 255 * 255 / 255 :=
          Nat.div_le_div_right (Nat.mul_le_mul (by omega) (by omega))
      _ = 255 := by norm_num
  have p3le : b * a / 255 ≤ 255 := by
    calc b * a / 255 ≤ 255 * 255 / 255 :=
          Nat.div_le_div_right (Nat.mul_le_mul (by omega) (by omega))
      _ = 255 := by norm_num
  unfold argb_premul_word xrgb_word
  set p1 := r * a / 255
  set p2 := g * a / 255
  set p3 := b * a / 255
  have hlt : a * 2 ^ 24 + p1 * 2 ^ 16 + p2 * 2 ^ 8 + p3 < 2 ^ 32 := by omega
  rw [Nat.mod_eq_of_lt hlt]
  refine ⟨by omega, by omega, by omega, by omega, ?_, ?_⟩
  · intro h0
    have e1 : p1 = 0 := by simp [p1, h0]
    have e2 : p2 = 0 := by simp [p2, h0]
    have e3 : p3 = 0 := by simp [p3, h0]
    omega
  · intro h255
    have e1 : p1 = r := by simp [p1, h255, Nat.mul_div_cancel]
    have e2 : p2 = g := by simp [p2, h255, Nat.mul_div_cancel]
    have e3 : p3 = b := by simp [p3, h255, Nat.mul_div_cancel]
    have hlt2 : r * 2 ^ 16 + g * 2 ^ 8 + b < 2 ^ 32 := by omega
    rw [Nat.mod_eq_of_lt hlt2]
    omega

/-- Witness for claim C2 at the constant-200 pixel source
(one pixel, stride 4). -/
theorem claim_C2_witness :
    ((argb_premul_converter (fun _ => 200) 1 4).getD 0 0) / 2 ^ 24 = 200 ∧
    ((argb_premul_converter (fun _ => 200) 1 4).getD 0 0) / 2 ^ 16 % 256 =
      200 * 200 / 255 ∧
    ((argb_premul_converter (fun _ => 200) 1 4).getD 0 0) / 2 ^ 8 % 256 =
      200 * 200 / 255 ∧
    ((argb_premul_converter (fun _ => 200) 1 4).getD 0 0) % 256 = 200 * 200 / 255 ∧
    (200 = 0 → (argb_premul_converter (fun _ => 200) 1 4).getD 0 0 % 2 ^ 24 = 0) ∧
    (200 = 255 →
      (argb_premul_converter (fun _ => 200) 1 4).getD 0 0 % 2 ^ 24 =
        (xrgb_converter (fun _ => 200) 1 4).getD 0 0) :=
  claim_C2 (fun _ => 200) 1 4 0 (by intro i; norm_num) (by decide)

/-! ### Claim C5 -/

/-- Claim C5 (amended): for a supported 16-bits-per-pixel TrueColor display,
converter selection picks the specialized 5-6-5 shift-and-mask pair
`(c565_converter, m565_converter)` exactly when
`(redshift, greenshift, blueshift, extrashift) = (11, 6, 0, 3)`, and the
generic masked-shift diffusion pair `(color16_converter, mono16_converter)`
otherwise.  (The specialized pair is not diffusion-free: it still carries
dither state, see the counterexample.) -/
theorem claim_C5 (v : Visual)
    (hpad8 : v.scanline_pad % 8 = 0)
    (hpow : v.scanline_pad / 8 &&& (v.scanline_pad / 8 - 1) = 0)
    (hbits : v.bits_per_pixel = 16)
    (hmask : v.red_mask ≠ 0) :
    figure_out_visual v =
      some ⟨2, max (v.scanline_pad / 8) STORESIZE,
        (if v.redshift = 11 ∧ v.greenshift = 6 ∧ v.blueshift = 0 ∧ v.extrashift = 3
         then ConvId.c565 else ConvId.color16),
        (if v.redshift = 11 ∧ v.greenshift = 6 ∧ v.blueshift = 0 ∧ v.extrashift = 3
         then ConvId.m565 else ConvId.mono16),
        v.depth, v.bits_per_pixel, WORDS_BIGENDIAN⟩ := by
  unfold figure_out_visual
  simp only [hbits, hpad8, hpow]
  norm_num [hmask]
  have hc : (((v.redshift : Int) = 11 ∧ (v.greenshift : Int) = 6 ∧ v.blueshift = 0 ∧
      v.extrashift = 3) ↔
      (v.redshift = 11 ∧ v.greenshift = 6 ∧ v.blueshift = 0 ∧ v.extrashift = 3)) := by
    omega
  simp only [hc]
  split <;> rename_i h <;> simp [h]

/-- Counterexample for claim C5 as stated: the output of the "specialized"
5-6-5 converter is not a function of the pixel's source bytes alone — the
same one-pixel row converts differently under two different carried dither
states (`ri = 7` versus `ri = 0`). -/
theorem claim_C5_cex :
    (c565_converter (fun _ => 1) 1 3 ⟨false, 7, 0, 0⟩).2 ≠
    (c565_converter (fun _ => 1) 1 3 ⟨false, 0, 0, 0⟩).2 := by decide

/-- Witness for claim C5 at the concrete 5-6-5 display `v565`. -/
theorem claim_C5_witness :
    figure_out_visual v565 =
      some ⟨2, max (v565.scanline_pad / 8) STORESIZE,
        (if v565.redshift = 11 ∧ v565.greenshift = 6 ∧ v565.blueshift = 0 ∧
            v565.extrashift = 3
         then ConvId.c565 else ConvId.color16),
        (if v565.redshift = 11 ∧ v565.greenshift = 6 ∧ v565.blueshift = 0 ∧
            v565.extrashift = 3
         then ConvId.m565 else ConvId.mono16),
        v565.depth, v565.bits_per_pixel, WORDS_BIGENDIAN⟩ :=
  claim_C5 v565 (by decide) (by decide) (by decide) (by decide)

/-! ### Claim C4: dither accumulator ranges -/

/-- `clampU` of a nonnegative value is in `[0, 255]`. -/
theorem inByte_clampU (x : Int) (hx : 0 ≤ x) : inByte (clampU x) := by
  unfold clampU
  split <;> omega

/-- `cAndMask` is nonnegative. -/
theorem cAndMask_nonneg (r : Int) (m : Nat) : 0 ≤ cAndMask r m := by
  unfold cAndMask
  exact Int.natCast_nonneg _

/-- For a byte-ranged value, `r & m` is at most `r`. -/
theorem cAndMask_le (r : Int) (m : Nat) (h : inByte r) : cAndMask r m ≤ r := by
  unfold cAndMask
  have he : r.emod 256 = r := Int.emod_eq_of_lt h.1 (by omega)
  rw [he]
  have h1 : r.toNat &&& m ≤ r.toNat := Nat.and_le_left
  omega

/-- For a byte-ranged value, `r & ~m` stays in `[0, r]`. -/
theorem cAndNotMask_bounds (r : Int) (m : Nat) (h : inByte r) :
    0 ≤ cAndNotMask r m ∧ cAndNotMask r m ≤ r := by
  unfold cAndNotMask
  have h1 := cAndMask_le r m h
  have h2 := cAndMask_nonneg r m
  omega

/-- One `c565_converter` pixel keeps the accumulators in `[0, 255]`. -/
theorem c565_step_range (st : Int × Int × Int) (p : Nat × Nat × Nat)
    (_h : range3 st) : range3 ((c565_step st p).1) := by
  refine ⟨inByte_clampU _ ?_, inByte_clampU _ ?_, inByte_clampU _ ?_⟩ <;>
    have := Int.emod_nonneg st.1 (b := 8) (by norm_num) <;>
    have := Int.emod_nonneg st.2.1 (b := 4) (by norm_num) <;>
    have := Int.emod_nonneg st.2.2 (b := 8) (by norm_num) <;>
    positivity

/-- One `m565_converter` pixel keeps the accumulators in `[0, 255]`. -/
theorem m565_step_range (st : Int × Int × Int) (p : Nat)
    (h : range3 st) : range3 ((m565_step st p).1) := by
  refine ⟨inByte_clampU _ ?_, h.2.1, h.2.2⟩
  have := Int.emod_nonneg st.1 (b := 8) (by norm_num)
  positivity

/-- One `color16_converter` pixel keeps the accumulators in `[0, 255]`. -/
theorem color16_step_range (mr mg mb rs gs bs es : Nat) (st : Int × Int × Int)
    (p : Nat × Nat × Nat) (h : range3 st) :
    range3 ((color16_step mr mg mb rs gs bs es st p).1) := by
  refine ⟨inByte_clampU _ ?_, inByte_clampU _ ?_, inByte_clampU _ ?_⟩
  · have := (cAndNotMask_bounds st.1 mr h.1).1
    positivity
  · have := (cAndNotMask_bounds st.2.1 mg h.2.1).1
    positivity
  · have := (cAndNotMask_bounds st.2.2 mb h.2.2).1
    positivity

/-- One `mono16_converter` pixel keeps the accumulators in `[0, 255]`. -/
theorem mono16_step_range (mr mg mb rs gs bs es : Nat) (st : Int × Int × Int)
    (p : Nat) (h : range3 st) :
    range3 ((mono16_step mr mg mb rs gs bs es st p).1) := by
  refine ⟨inByte_clampU _ ?_, h.2.1, h.2.2⟩
  have := (cAndNotMask_bounds st.1 (mr &&& mg &&& mb) h.1).1
  positivity

/-- A state predicate preserved by the step is preserved by `scanList`. -/
theorem scanList_fst_preserves {α β σ : Type} (P : σ → Prop) (step : σ → α → σ × β)
    (hstep : ∀ s a, P s → P (step s a).1) (l : List α) :
    ∀ s, P s → P (scanList step s l).1 := by
  induction l with
  | nil => intro s h; simpa [scanList] using h
  | cons a as ih =>
    intro s h
    simp only [scanList]
    exact ih _ (hstep _ _ h)

/-- A range-preserving step gives a range-preserving serpentine pass. -/
theorem serpentine_range {α : Type} (step : Int × Int × Int → α → (Int × Int × Int) × Nat)
    (hstep : ∀ s a, range3 s → range3 (step s a).1) (d : Dither) (row : List α)
    (hd : ditherInRange d) : ditherInRange (serpentine step d row).1 := by
  unfold serpentine
  split <;>
    exact scanList_fst_preserves range3 step hstep _ (d.ri, d.gi, d.bi) ⟨hd.1, hd.2.1, hd.2.2⟩

/-- A range-preserving converter preserves the range across any sequence of
calls. -/
theorem convCalls_range (conv : (Int → Nat) → Nat → Int → Dither → Dither × List Nat)
    (hconv : ∀ f w delta d, ditherInRange d → ditherInRange (conv f w delta d).1)
    (calls : List ((Int → Nat) × Nat × Int)) :
    ∀ d, ditherInRange d → ditherInRange (convCalls conv calls d) := by
  induction calls with
  | nil => intro d h; simpa [convCalls] using h
  | cons c cs ih =>
    intro d h
    simp only [convCalls, List.foldl_cons] at *
    exact ih _ (hconv _ _ _ _ h)

/-- Claim C4 (amended): starting from a dither state within `[0, 255]` (in
particular the initial zero state), the error accumulators of the four
16-bit error-diffusion converters stay within `[0, 255]` after every pixel
(the step statements) and across every sequence of calls of any lengths and
strides (the `convCalls` statements).  The palette converter does not obey
the `[0, 255]` bound: its saved accumulator can become negative (see the
counterexample), though it always stays within `[-255, 255]`. -/
theorem claim_C4 :
    (∀ st p, range3 st → range3 ((c565_step st p).1)) ∧
    (∀ st p, range3 st → range3 ((m565_step st p).1)) ∧
    (∀ mr mg mb rs gs bs es st p, range3 st →
      range3 ((color16_step mr mg mb rs gs bs es st p).1)) ∧
    (∀ mr mg mb rs gs bs es st p, range3 st →
      range3 ((mono16_step mr mg mb rs gs bs es st p).1)) ∧
    (∀ calls d, ditherInRange d → ditherInRange (convCalls c565_converter calls d)) ∧
    (∀ calls d, ditherInRange d → ditherInRange (convCalls m565_converter calls d)) ∧
    (∀ mr mg mb rs gs bs es calls d, ditherInRange d →
      ditherInRange (convCalls (color16_converter mr mg mb rs gs bs es) calls d)) ∧
    (∀ mr mg mb rs gs bs es calls d, ditherInRange d →
      ditherInRange (convCalls (mono16_converter mr mg mb rs gs bs es) calls d)) := by
  refine ⟨c565_step_range, m565_step_range, color16_step_range, mono16_step_range,
    ?_, ?_, ?_, ?_⟩
  · exact convCalls_range _
      (fun f w delta d hd => serpentine_range _ c565_step_range d _ hd)
  · exact convCalls_range _
      (fun f w delta d hd => serpentine_range _ m565_step_range d _ hd)
  · intro mr mg mb rs gs bs es
    exact convCalls_range _
      (fun f w delta d hd => serpentine_range _ (color16_step_range mr mg mb rs gs bs es) d _ hd)
  · intro mr mg mb rs gs bs es
    exact convCalls_range _
      (fun f w delta d hd => serpentine_range _ (mono16_step_range mr mg mb rs gs bs es) d _ hd)

/-- Counterexample for claim C4 as stated: after one `color8_converter`
call on the single pixel `(103,103,103)` from the zero dither state, the
saved red accumulator is `103 - 127 = -24`, outside `[0, 255]` (the
clamped sample 103 quantizes to cube index 2, whose palette red is 127). -/
theorem claim_C4_cex :
    ¬ (0 ≤ (color8_converter (fun _ => 103) 1 3 ⟨false, 0, 0, 0⟩).1.ri ∧
       (color8_converter (fun _ => 103) 1 3 ⟨false, 0, 0, 0⟩).1.ri ≤ 255) := by decide

/-- Witness for claim C4: a concrete step and a concrete two-call run. -/
theorem claim_C4_witness :
    range3 ((c565_step (0, 0, 0) (10, 20, 30)).1) ∧
    ditherInRange (convCalls c565_converter
      [(fun _ => 77, 2, 3), (fun _ => 201, 3, 3)] ⟨false, 0, 0, 0⟩) :=
  ⟨claim_C4.1 (0, 0, 0) (10, 20, 30) (by decide),
    claim_C4.2.2.2.2.1 [(fun _ => 77, 2, 3), (fun _ => 201, 3, 3)] ⟨false, 0, 0, 0⟩
      (by decide)⟩

/-! ### Claim C10: draw_image argument decoding -/

/-- XOR with a single bit `2^k`, on a value decomposed below that bit. -/
theorem xor_two_pow {k : Nat} (a b : Nat) (hb : b < 2 ^ k) :
    (2 ^ k * a + b) ^^^ 2 ^ k = 2 ^ k * (a ^^^ 1) + b := by
  apply Nat.eq_of_testBit_eq
  intro i
  have hd1 : 2 ^ k * a + b = 2 ^ k * a ||| b := Nat.mul_add_lt_is_or hb a
  have hd2 : 2 ^ k * (a ^^^ 1) + b = 2 ^ k * (a ^^^ 1) ||| b := Nat.mul_add_lt_is_or hb _
  have hs1 : 2 ^ k * a = a <<< k := by rw [Nat.shiftLeft_eq, Nat.mul_comm]
  have hs2 : 2 ^ k * (a ^^^ 1) = (a ^^^ 1) <<< k := by rw [Nat.shiftLeft_eq, Nat.mul_comm]
  rw [hd1, hd2, hs1, hs2]
  simp only [Nat.testBit_xor, Nat.testBit_or, Nat.testBit_shiftLeft, Nat.testBit_two_pow]
  rcases Nat.lt_or_ge i k with hi | hi
  · have h1 : decide (k = i) = false := by simp; omega
    have h2 : decide (k ≤ i) = false := by simp; omega
    simp [h1, h2]
  · have hbb : b.testBit i = false := by
      apply Nat.testBit_lt_two_pow
      calc b < 2 ^ k := hb
        _ ≤ 2 ^ i := Nat.pow_le_pow_right (by norm_num) hi
    have h2 : decide (k ≤ i) = true := by simp [hi]
    have h1 : (1 : Nat).testBit (i - k) = decide (k = i) := by
      have e : (1 : Nat) = 2 ^ 0 := rfl
      rw [e, Nat.testBit_two_pow]
      rcases eq_or_ne i k with he | hne
      · simp [he]
      · have ha : decide ((0 : Nat) = i - k) = false := by simp; omega
        have hb2 : decide (k = i) = false := by simp; omega
        rw [ha, hb2]
    simp [h1, h2, hbb, Bool.xor_comm]

/-- Testing the `0x40000000` bit of a value below `2^31` is the comparison
`2^30 ≤ m`. -/
theorem and_two_pow_30 (m : Nat) (hm : m < 2 ^ 31) :
    (m &&& 0x40000000 ≠ 0) ↔ 2 ^ 30 ≤ m := by
  have he : (0x40000000 : Nat) = 2 ^ 30 := by norm_num
  rw [he, Nat.and_two_pow, Nat.testBit_to_div_mod]
  rcases Nat.lt_or_ge m (2 ^ 30) with h | h
  · have h0 : m / 2 ^ 30 = 0 := Nat.div_eq_of_lt h
    simp [h0]
    omega
  · simp
    omega

/-- Stripping the flag bit from a nonnegative 32-bit int subtracts `2^30`. -/
theorem cXor32_strip_pos (m : Nat) (h1 : 2 ^ 30 ≤ m) (h2 : m < 2 ^ 31) :
    cXor32 (m : Int) 0x40000000 = (m : Int) - 2 ^ 30 := by
  unfold cXor32 toSigned32
  have he : ((m : Int).emod (2 ^ 32)) = (m : Int) := by
    apply Int.emod_eq_of_lt
    · positivity
    · have : (m : Int) < 2 ^ 31 := by exact_mod_cast h2
      omega
  rw [he]
  have ht : ((m : Int)).toNat = m := Int.toNat_natCast m
  rw [ht]
  have hm : m = 2 ^ 30 * 1 + (m - 2 ^ 30) := by omega
  have hx : m ^^^ 0x40000000 = m - 2 ^ 30 := by
    have hE : (0x40000000 : Nat) = 2 ^ 30 := by norm_num
    rw [hE]
    calc m ^^^ 2 ^ 30 = (2 ^ 30 * 1 + (m - 2 ^ 30)) ^^^ 2 ^ 30 := by rw [← hm]
      _ = 2 ^ 30 * (1 ^^^ 1) + (m - 2 ^ 30) := xor_two_pow 1 (m - 2 ^ 30) (by omega)
      _ = m - 2 ^ 30 := by norm_num
  rw [hx]
  have hlt : m - 2 ^ 30 < 2 ^ 31 := by omega
  rw [if_pos (by exact_mod_cast hlt)]
  push_cast
  omega

/-- Stripping the flag bit from a negative 32-bit int `-m` (with the bit
strictly inside the magnitude) gives `-(m - 2^30)`. -/
theorem cXor32_strip_neg (m : Nat) (h1 : 2 ^ 30 < m) (h2 : m < 2 ^ 31) :
    cXor32 (-(m : Int)) 0x40000000 = -(((m : Int)) - 2 ^ 30) := by
  unfold cXor32 toSigned32
  have hmpos : (0 : Int) < m := by exact_mod_cast Nat.lt_of_lt_of_le (by norm_num) (Nat.le_of_lt h1)
  have hmlt : (m : Int) < 2 ^ 31 := by exact_mod_cast h2
  have he : ((-(m : Int)).emod (2 ^ 32)) = 2 ^ 32 - (m : Int) := by
    have hstep : (-(m : Int) + 2 ^ 32 * 1).emod (2 ^ 32) = (-(m : Int)).emod (2 ^ 32) :=
      Int.add_mul_emod_self_left (-(m : Int)) (2 ^ 32) 1
    rw [← hstep, mul_one]
    have hv : (-(m : Int) + 2 ^ 32).emod (2 ^ 32) = -(m : Int) + 2 ^ 32 :=
      Int.emod_eq_of_lt (by omega) (by omega)
    rw [hv]
    ring
  rw [he]
  have ht : ((2 : Int) ^ 32 - (m : Int)).toNat = 2 ^ 32 - m := by
    have : ((2 : Int) ^ 32 - (m : Int)) = ((2 ^ 32 - m : Nat) : Int) := by
      push_cast
      omega
    rw [this, Int.toNat_natCast]
  rw [ht]
  have hval : 2 ^ 32 - m = 2 ^ 30 * 2 + (2 ^ 30 - (m - 2 ^ 30)) := by omega
  have hx : (2 ^ 32 - m) ^^^ 0x40000000 = 2 ^ 31 + 2 ^ 30 + (2 ^ 30 - (m - 2 ^ 30)) := by
    have hE : (0x40000000 : Nat) = 2 ^ 30 := by norm_num
    rw [hE, hval]
    calc (2 ^ 30 * 2 + (2 ^ 30 - (m - 2 ^ 30))) ^^^ 2 ^ 30
        = 2 ^ 30 * (2 ^^^ 1) + (2 ^ 30 - (m - 2 ^ 30)) := xor_two_pow 2 _ (by omega)
      _ = 2 ^ 31 + 2 ^ 30 + (2 ^ 30 - (m - 2 ^ 30)) := by
          rw [show (2 ^^^ 1 : Nat) = 3 from rfl]
          omega
  rw [hx]
  rw [if_neg (by push_cast; omega)]
  push_cast
  omega

/-- Claim C10: the draw_image entry points decode the alpha flag as the
`FL_IMAGE_WITH_ALPHA` bit (bit 30) of the absolute value of the channel
count `d`; when set, the flag is stripped before further use, leaving a
value of the same sign whose absolute value is `|d| - 2^30` (for the
degenerate input `d = -2^30` the XOR strip instead yields `INT_MIN`,
excluded here); grayscale is selected exactly when the remaining value is
strictly between -3 and 3. -/
theorem claim_C10 (d : Int) (hlo : -2 ^ 31 < d) (hhi : d < 2 ^ 31) :
    ((draw_image_args d).1 = decide (2 ^ 30 ≤ d.natAbs)) ∧
    ((draw_image_args d).1 = false → (draw_image_args d).2.1 = d) ∧
    ((draw_image_args d).1 = true → d ≠ -(2 ^ 30) →
      ((draw_image_args d).2.1.natAbs = d.natAbs - 2 ^ 30 ∧
       (0 ≤ d → 0 ≤ (draw_image_args d).2.1) ∧
       (d < 0 → (draw_image_args d).2.1 < 0))) ∧
    ((draw_image_args d).2.2 =
      decide (-3 < (draw_image_args d).2.1 ∧ (draw_image_args d).2.1 < 3)) := by
  have hm : d.natAbs < 2 ^ 31 := by omega
  by_cases hP : d.natAbs &&& FL_IMAGE_WITH_ALPHA ≠ 0
  · have hge : 2 ^ 30 ≤ d.natAbs := (and_two_pow_30 _ hm).mp hP
    have ha : (draw_image_args d).1 = true := by
      simp only [draw_image_args]
      exact decide_eq_true hP
    have hd1 : (draw_image_args d).2.1 = cXor32 d FL_IMAGE_WITH_ALPHA := by
      simp only [draw_image_args]
      rw [if_pos (decide_eq_true hP)]
    refine ⟨?_, ?_, ?_, rfl⟩
    · rw [ha]
      symm
      simpa using hge
    · intro hfalse
      rw [ha] at hfalse
      exact absurd hfalse (by simp)
    · intro _ hne
      rcases Int.lt_or_le d 0 with hneg | hpos
      · have hgt : 2 ^ 30 < d.natAbs := by
          rcases Nat.eq_or_lt_of_le hge with he | hlt
          · exfalso
            apply hne
            omega
          · exact hlt
        have hdm : d = -((d.natAbs : Int)) := by omega
        have hsn := cXor32_strip_neg d.natAbs hgt hm
        rw [hd1, hdm]
        unfold FL_IMAGE_WITH_ALPHA
        rw [hsn]
        have hc : (2 : Int) ^ 30 < (d.natAbs : Int) := by exact_mod_cast hgt
        constructor
        · omega
        · constructor
          · intro h0
            omega
          · intro _
            omega
      · have hdm : d = ((d.natAbs : Int)) := by omega
        have hsp := cXor32_strip_pos d.natAbs hge hm
        rw [hd1, hdm]
        unfold FL_IMAGE_WITH_ALPHA
        rw [hsp]
        have hc : (2 : Int) ^ 30 ≤ (d.natAbs : Int) := by exact_mod_cast hge
        refine ⟨by omega, fun _ => by omega, fun hdn => by omega⟩
  · have hlt : ¬ (2 ^ 30 ≤ d.natAbs) := fun hc => hP ((and_two_pow_30 _ hm).mpr hc)
    have ha : (draw_image_args d).1 = false := by
      simp only [draw_image_args]
      simpa using hP
    have hd1 : (draw_image_args d).2.1 = d := by
      simp only [draw_image_args]
      rw [if_neg]
      simpa using hP
    refine ⟨?_, fun _ => hd1, ?_, rfl⟩
    · rw [ha]
      symm
      simpa using hlt
    · intro htrue
      rw [ha] at htrue
      exact absurd htrue (by simp)

/-- Witness for claim C10 at `d = 0x40000003` (RGB with the alpha flag):
alpha decodes true, the stripped channel count is 3, and mono is false. -/
theorem claim_C10_witness :
    ((draw_image_args 1073741827).1 = decide (2 ^ 30 ≤ (1073741827 : Int).natAbs)) ∧
    ((draw_image_args 1073741827).1 = false → (draw_image_args 1073741827).2.1 = 1073741827) ∧
    ((draw_image_args 1073741827).1 = true → (1073741827 : Int) ≠ -(2 ^ 30) →
      (((draw_image_args 1073741827).2.1.natAbs = (1073741827 : Int).natAbs - 2 ^ 30) ∧
       (0 ≤ (1073741827 : Int) → 0 ≤ (draw_image_args 1073741827).2.1) ∧
       ((1073741827 : Int) < 0 → (draw_image_args 1073741827).2.1 < 0))) ∧
    ((draw_image_args 1073741827).2.2 =
      decide (-3 < (draw_image_args 1073741827).2.1 ∧ (draw_image_args 1073741827).2.1 < 3)) :=
  claim_C10 1073741827 (by decide) (by decide)

/-! ### Claim C3: the manual alpha-blend helper -/

/-- Closed form of one RGBA blend row: pixel `x` reads source bytes at
`so + 4x .. so + 4x + 3` and destination bytes at `t + 3x .. t + 3x + 2`. -/
theorem ab4Row_eq (src dst : Int → Nat) :
    ∀ (n : Nat) (so t : Int),
      ab4Row src dst n so t =
        (List.range n).flatMap fun (x : Nat) =>
          [blendByte (src (so + 4 * x)) (src (so + 4 * x + 3)) (dst (t + 3 * x)),
           blendByte (src (so + 4 * x + 1)) (src (so + 4 * x + 3)) (dst (t + 3 * x + 1)),
           blendByte (src (so + 4 * x + 2)) (src (so + 4 * x + 3)) (dst (t + 3 * x + 2))] := by
  intro n
  induction n with
  | zero => intro so t; rfl
  | succ n ih =>
    intro so t
    rw [List.range_succ_eq_map, List.flatMap_cons, List.flatMap_map]
    show ab4Row src dst (n + 1) so t = _
    rw [ab4Row, ih (so + 4) (t + 3)]
    simp only [List.cons_append, List.nil_append]
    congr 1
    · norm_num
    congr 1
    · norm_num
    congr 1
    · norm_num
    congr 1
    funext x
    simp only [Function.comp, Nat.succ_eq_add_one]
    push_cast
    ring_nf

/-- Closed form of the full RGBA-over-RGB traversal. -/
theorem ab4_eq (src dst : Int → Nat) (W : Nat) (skip : Int) :
    ∀ (H : Nat) (so t : Int),
      ab4 src dst W skip H so t =
        (List.range H).flatMap fun (y : Nat) =>
          (List.range W).flatMap fun (x : Nat) =>
            [blendByte (src (so + y * (4 * W + skip) + 4 * x))
               (src (so + y * (4 * W + skip) + 4 * x + 3)) (dst (t + 3 * (y * W + x))),
             blendByte (src (so + y * (4 * W + skip) + 4 * x + 1))
               (src (so + y * (4 * W + skip) + 4 * x + 3)) (dst (t + 3 * (y * W + x) + 1)),
             blendByte (src (so + y * (4 * W + skip) + 4 * x + 2))
               (src (so + y * (4 * W + skip) + 4 * x + 3)) (dst (t + 3 * (y * W + x) + 2))] := by
  intro H
  induction H with
  | zero => intro so t; rfl
  | succ H ih =>
    intro so t
    rw [List.range_succ_eq_map, List.flatMap_cons, List.flatMap_map]
    show ab4 src dst W skip (H + 1) so t = _
    rw [ab4, ih (so + 4 * W + skip) (t + 3 * W), ab4Row_eq]
    congr 1
    · congr 1
      funext x
      push_cast
      ring_nf
    · congr 1
      funext y
      congr 1
      funext x
      simp only [Function.comp, Nat.succ_eq_add_one]
      push_cast
      ring_nf

/-- Closed form of one grayscale+alpha blend row: the single intensity byte
`src (so + 2x)` feeds all three output channels. -/
theorem ab2Row_eq (src dst : Int → Nat) :
    ∀ (n : Nat) (so t : Int),
      ab2Row src dst n so t =
        (List.range n).flatMap fun (x : Nat) =>
          [blendByte (src (so + 2 * x)) (src (so + 2 * x + 1)) (dst (t + 3 * x)),
           blendByte (src (so + 2 * x)) (src (so + 2 * x + 1)) (dst (t + 3 * x + 1)),
           blendByte (src (so + 2 * x)) (src (so + 2 * x + 1)) (dst (t + 3 * x + 2))] := by
  intro n
  induction n with
  | zero => intro so t; rfl
  | succ n ih =>
    intro so t
    rw [List.range_succ_eq_map, List.flatMap_cons, List.flatMap_map]
    show ab2Row src dst (n + 1) so t = _
    rw [ab2Row, ih (so + 2) (t + 3)]
    simp only [List.cons_append, List.nil_append]
    congr 1
    · norm_num
    congr 1
    · norm_num
    congr 1
    · norm_num
    congr 1
    funext x
    simp only [Function.comp, Nat.succ_eq_add_one]
    push_cast
    ring_nf

/-- Closed form of the full grayscale+alpha traversal. -/
theorem ab2_eq (src dst : Int → Nat) (W : Nat) (skip : Int) :
    ∀ (H : Nat) (so t : Int),
      ab2 src dst W skip H so t =
        (List.range H).flatMap fun (y : Nat) =>
          (List.range W).flatMap fun (x : Nat) =>
            [blendByte (src (so + y * (2 * W + skip) + 2 * x))
               (src (so + y * (2 * W + skip) + 2 * x + 1)) (dst (t + 3 * (y * W + x))),
             blendByte (src (so + y * (2 * W + skip) + 2 * x))
               (src (so + y * (2 * W + skip) + 2 * x + 1)) (dst (t + 3 * (y * W + x) + 1)),
             blendByte (src (so + y * (2 * W + skip) + 2 * x))
               (src (so + y * (2 * W + skip) + 2 * x + 1)) (dst (t + 3 * (y * W + x) + 2))] := by
  intro H
  induction H with
  | zero => intro so t; rfl
  | succ H ih =>
    intro so t
    rw [List.range_succ_eq_map, List.flatMap_cons, List.flatMap_map]
    show ab2 src dst W skip (H + 1) so t = _
    rw [ab2, ih (so + 2 * W + skip) (t + 3 * W), ab2Row_eq]
    congr 1
    · congr 1
      funext x
      push_cast
      ring_nf
    · congr 1
      funext y
      congr 1
      funext x
      simp only [Function.comp, Nat.succ_eq_add_one]
      push_cast
      ring_nf

set_option maxRecDepth 4096 in
/-- Claim C3: the alpha-blend helper computes, per channel of pixel `(x,y)`,
`dst' = (src_channel * src_alpha + dst_channel * (255 - src_alpha)) >> 8`,
reading source channel `c` at `cy*ld + cx*d + y*ld + d*x + c` and the
destination pixel at `3*(y*W + x)`; for a 2-channel (grayscale+alpha)
source the single intensity byte feeds all three output channels; and for
the concrete 8×8 RGBA image with color `(200,100,50)` and alpha 128 over a
black destination every output pixel is `(100, 50, 25)`. -/
theorem claim_C3 :
    (∀ (src dst : Int → Nat) (imgw : Nat) (ld0 cx cy : Int) (W H : Nat) (ld : Int),
      ld = (if ld0 = 0 then (imgw * 2 : Int) else ld0) →
      alpha_blend2 src imgw ld0 cx cy W H dst =
        (List.range H).flatMap fun (y : Nat) =>
          (List.range W).flatMap fun (x : Nat) =>
            [blendByte (src (cy * ld + cx * 2 + y * ld + 2 * x))
               (src (cy * ld + cx * 2 + y * ld + 2 * x + 1)) (dst (3 * (y * W + x))),
             blendByte (src (cy * ld + cx * 2 + y * ld + 2 * x))
               (src (cy * ld + cx * 2 + y * ld + 2 * x + 1)) (dst (3 * (y * W + x) + 1)),
             blendByte (src (cy * ld + cx * 2 + y * ld + 2 * x))
               (src (cy * ld + cx * 2 + y * ld + 2 * x + 1)) (dst (3 * (y * W + x) + 2))]) ∧
    (∀ (src dst : Int → Nat) (imgw : Nat) (ld0 cx cy : Int) (W H : Nat) (ld : Int),
      ld = (if ld0 = 0 then (imgw * 4 : Int) else ld0) →
      alpha_blend4 src imgw ld0 cx cy W H dst =
        (List.range H).flatMap fun (y : Nat) =>
          (List.range W).flatMap fun (x : Nat) =>
            [blendByte (src (cy * ld + cx * 4 + y * ld + 4 * x))
               (src (cy * ld + cx * 4 + y * ld + 4 * x + 3)) (dst (3 * (y * W + x))),
             blendByte (src (cy * ld + cx * 4 + y * ld + 4 * x + 1))
               (src (cy * ld + cx * 4 + y * ld + 4 * x + 3)) (dst (3 * (y * W + x) + 1)),
             blendByte (src (cy * ld + cx * 4 + y * ld + 4 * x + 2))
               (src (cy * ld + cx * 4 + y * ld + 4 * x + 3)) (dst (3 * (y * W + x) + 2))]) ∧
    alpha_blend4
      (fun i => if i.emod 4 = 0 then 200 else if i.emod 4 = 1 then 100
                else if i.emod 4 = 2 then 50 else 128)
      8 0 0 0 8 8 (fun _ => 0) =
      (List.range 64).flatMap fun _ => [100, 50, 25] := by
  refine ⟨?_, ?_, by decide⟩
  · intro src dst imgw ld0 cx cy W H ld hld
    subst hld
    unfold alpha_blend2
    rw [ab2_eq]
    congr 1
    funext y
    congr 1
    funext x
    congr 3 <;> ring_nf
  · intro src dst imgw ld0 cx cy W H ld hld
    subst hld
    unfold alpha_blend4
    rw [ab4_eq]
    congr 1
    funext y
    congr 1
    funext x
    congr 3 <;> ring_nf

/-- Witness for claim C3: the grayscale+alpha closed form at a 1×1 image
with intensity 9, alpha 9, black destination. -/
theorem claim_C3_witness :
    alpha_blend2 (fun _ => 9) 1 0 0 0 1 1 (fun _ => 0) =
      (List.range 1).flatMap fun (_ : Nat) => (List.range 1).flatMap fun (_ : Nat) =>
        [blendByte 9 9 0, blendByte 9 9 0, blendByte 9 9 0] :=
  claim_C3.1 (fun _ => 9) (fun _ => 0) 1 0 0 0 1 1 2 (by norm_num)

/-! ### Claim C6: degenerate inputs -/

/-- Claim C6 (amended): a requested rectangle whose clipped intersection
with the visible region is empty — in particular any call with zero or
negative width or height — returns with no events and the shared state
unchanged.  (A null pixel source with no callback is NOT such a silent
no-op: the engine reaches the null callback call, see the
counterexample.) -/
theorem claim_C6 (g : GState) (v : Visual) (clipr : Rect) (buf : Option (Int → Nat))
    (X Y W H delta l : Int) (mono : Bool)
    (cb : Option (Int → Int → Nat → Int → Nat)) (alpha : Bool)
    (hdeg : W ≤ 0 ∨ H ≤ 0 ∨ (clip_box X Y W H clipr).2.2.1 ≤ 0 ∨
      (clip_box X Y W H clipr).2.2.2 ≤ 0) :
    innards g v clipr buf X Y W H delta l mono cb alpha = some (g, []) := by
  have hcl : (clip_box X Y W H clipr).2.2.1 ≤ 0 ∨ (clip_box X Y W H clipr).2.2.2 ≤ 0 := by
    unfold clip_box at hdeg ⊢
    dsimp at hdeg ⊢
    have h1 : min (X + W) (clipr.x + clipr.w) ≤ X + W := min_le_left _ _
    have h2 : X ≤ max X clipr.x := le_max_left _ _
    have h3 : min (Y + H) (clipr.y + clipr.h) ≤ Y + H := min_le_left _ _
    have h4 : Y ≤ max Y clipr.y := le_max_left _ _
    omega
  simp only [innards]
  rw [if_pos hcl]

/-- Counterexample for claim C6 as stated: a null pixel source with no
callback and a nonempty clipped rectangle is not a silent no-op — the
engine reaches the call of the null callback (modelled as `none`), instead
of returning with the state unchanged and no events. -/
theorem claim_C6_cex :
    innards gInit565 v565 clipAll none 0 0 4 4 1 0 false none false ≠
      some (gInit565, []) := by decide

/-- Witness for claim C6 at a zero-width request. -/
theorem claim_C6_witness :
    innards gInit565 v565 clipAll none 0 0 0 5 1 0 false none false =
      some (gInit565, []) :=
  claim_C6 gInit565 v565 clipAll none 0 0 0 5 1 0 false none false
    (Or.inl (by norm_num))

/-! ### Claim C9: alpha-mode format restore -/

/-- Claim C9: any alpha-mode call that completes restores the format fields
it overrode — `bytes_per_pixel`, `xi.depth` and `xi.bits_per_pixel` — to
their pre-call values, provided the format descriptor was already
initialized (`bytes_per_pixel ≠ 0`, `xi` fields canonical), so a subsequent
non-alpha blit sees the descriptor it would have seen before the call. -/
theorem claim_C9 (g g2 : GState) (v : Visual) (clipr : Rect) (buf : Option (Int → Nat))
    (X Y W H delta l : Int) (mono : Bool)
    (cb : Option (Int → Int → Nat → Int → Nat)) (evs : List Ev)
    (hbpp : g.bytes_per_pixel ≠ 0)
    (hdepth : g.xi_depth = v.depth)
    (hbits : g.xi_bits = g.bytes_per_pixel * 8)
    (hrun : innards g v clipr buf X Y W H delta l mono cb true = some (g2, evs)) :
    g2.bytes_per_pixel = g.bytes_per_pixel ∧ g2.xi_depth = g.xi_depth ∧
    g2.xi_bits = g.xi_bits := by
  simp only [innards, hbpp, if_false, restoreAlpha, eq_self_iff_true, if_true,
    ite_true] at hrun
  repeat' split at hrun
  all_goals try exact Option.noConfusion hrun
  all_goals rw [Option.some.injEq, Prod.mk.injEq] at hrun
  all_goals try (rw [← hrun.1]; exact ⟨rfl, rfl, rfl⟩)
  all_goals (rw [← hrun.1]; exact ⟨rfl, hdepth.symm, hbits.symm⟩)

/-- Witness for claim C9: a 2×1 alpha-mode draw on the 5-6-5 display leaves
`bytes_per_pixel`, `xi_depth` and `xi_bits` as they were. -/
theorem claim_C9_witness :
    (⟨2, 4, ConvId.c565, ConvId.m565, 16, 16, false, 2, 1, 2,
        ⟨false, 0, 0, 0⟩⟩ : GState).bytes_per_pixel = gInit565.bytes_per_pixel ∧
    (⟨2, 4, ConvId.c565, ConvId.m565, 16, 16, false, 2, 1, 2,
        ⟨false, 0, 0, 0⟩⟩ : GState).xi_depth = gInit565.xi_depth ∧
    (⟨2, 4, ConvId.c565, ConvId.m565, 16, 16, false, 2, 1, 2,
        ⟨false, 0, 0, 0⟩⟩ : GState).xi_bits = gInit565.xi_bits :=
  claim_C9 gInit565
    ⟨2, 4, ConvId.c565, ConvId.m565, 16, 16, false, 2, 1, 2, ⟨false, 0, 0, 0⟩⟩
    v565 clipAll (some fun _ => 1) 0 0 2 1 4 8 false none
    [Ev.convRow ConvId.argb_premul 0, Ev.putImage 0 0 2 1]
    (by decide) rfl rfl (by rfl)

/-! ### Claim C8: the RGB passthrough fast path -/

/-- `rgb_converter` at stride 3 copies its input bytes unchanged. -/
theorem rgb_converter_identity (f : Int → Nat) :
    ∀ w, rgb_converter f w 3 = (List.range (3 * w)).map fun (i : Nat) => f (i : Int) := by
  intro w
  induction w with
  | zero => rfl
  | succ w ih =>
    unfold rgb_converter
    unfold rgb_converter at ih
    rw [List.range_succ, List.flatMap_append, ih]
    have h3 : 3 * (w + 1) = (3 * w + 1) + 1 + 1 := by ring
    rw [h3, List.range_succ, List.range_succ, List.range_succ]
    simp only [List.map_append, List.flatMap_cons, List.flatMap_nil, List.append_nil,
      List.map_cons, List.map_nil, List.append_assoc]
    congr 2
    · push_cast; ring_nf
    · congr 2
      · push_cast; ring_nf
      · congr 2
        push_cast; ring_nf

/-- Claim C8 (code bug): the canonical RGB passthrough converter is indeed
the identity on 3-byte pixels at stride 3, but the fast path is NOT
behavior-equivalent to running the converter: when it is taken
(rgb converter selected, delta 3, aligned stride) `innards` sets `xi.data`
to point into the source buffer and then returns without ever calling
`XPutImage`, so nothing is drawn — while the very same draw with a stride
that defeats the fast path issues the conversions and the blit. -/
theorem claim_C8 :
    (∀ (f : Int → Nat) (w : Nat),
      rgb_converter f w 3 = (List.range (3 * w)).map fun (i : Nat) => f (i : Int)) ∧
    (innards gInitRGB vRGB clipAll (some (fun _ => 5)) 0 0 2 2 3 8 false none false).map
        Prod.snd = some ([] : List Ev) ∧
    (innards gInitRGB vRGB clipAll (some (fun _ => 5)) 0 0 2 2 3 9 false none false).map
        Prod.snd = some [Ev.convRow ConvId.rgb 0, Ev.convRow ConvId.rgb 1,
          Ev.putImage 0 0 2 2] :=
  ⟨fun f w => rgb_converter_identity f w, by decide, by decide⟩

/-! ### Claim C7: chunk tiling -/

/-- With at least one row per chunk and fuel at least `h`, the chunk sizes
sum to `h`. -/
theorem chunkSizesGo_sum (blocking : Nat) (hb : 1 ≤ blocking) :
    ∀ fuel h, h ≤ fuel → (chunkSizesGo blocking fuel h).sum = h := by
  intro fuel
  induction fuel with
  | zero =>
    intro h hh
    have h0 : h = 0 := by omega
    subst h0
    rfl
  | succ fuel ih =>
    intro h hh
    unfold chunkSizesGo
    by_cases h0 : h = 0
    · subst h0
      simp
    · rw [if_neg h0, if_neg (by omega : ¬ blocking = 0)]
      simp only [List.sum_cons]
      rw [ih (h - min blocking h) (by omega)]
      omega

/-- The chunk sizes sum to the full height. -/
theorem chunkSizes_sum (blocking h : Nat) (hb : 1 ≤ blocking) :
    (chunkSizes blocking h).sum = h :=
  chunkSizesGo_sum blocking hb h h le_rfl

/-- `chunkStartsFrom` pairs sizes with consecutive starting rows, so the
flattened row ranges are exactly `range' s (sum of sizes)`. -/
theorem chunkStartsFrom_flatten :
    ∀ (sizes : List Nat) (s : Nat),
      ((chunkStartsFrom s sizes).flatMap fun sk => (List.range sk.2).map (sk.1 + ·)) =
        List.range' s sizes.sum := by
  intro sizes
  induction sizes with
  | nil => intro s; rfl
  | cons k ks ih =>
    intro s
    simp only [chunkStartsFrom, List.flatMap_cons, List.sum_cons]
    rw [ih (s + k), ← List.range'_eq_map_range, List.range'_append_1]
    congr 1
    omega

/-- A nonzero height with enough fuel yields a nonempty chunk list. -/
theorem chunkSizesGo_ne_nil (blocking : Nat) (hb : 1 ≤ blocking) :
    ∀ fuel h, 1 ≤ h → h ≤ fuel → chunkSizesGo blocking fuel h ≠ [] := by
  intro fuel
  cases fuel with
  | zero => intro h h1 h2; omega
  | succ fuel =>
    intro h h1 h2
    unfold chunkSizesGo
    rw [if_neg (by omega), if_neg (by omega)]
    simp

/-- `chunkStartsFrom` preserves length. -/
theorem chunkStartsFrom_length : ∀ (l : List Nat) (s : Nat),
    (chunkStartsFrom s l).length = l.length := by
  intro l
  induction l with
  | nil => intro s; rfl
  | cons k ks ih => intro s; simp [chunkStartsFrom, ih]

/-- A height exceeding the per-buffer row capacity produces at least two
blit chunks. -/
theorem chunkPuts_length_two (blocking h : Nat) (hb : 1 ≤ blocking)
    (hgt : blocking < h) : 2 ≤ (chunkPuts blocking h).length := by
  unfold chunkPuts chunkSizes
  obtain ⟨k, rfl⟩ : ∃ k, h = k + 1 := ⟨h - 1, by omega⟩
  unfold chunkSizesGo
  rw [if_neg (by omega), if_neg (by omega)]
  simp only [chunkStartsFrom, List.length_cons]
  have hne := chunkSizesGo_ne_nil blocking hb k (k + 1 - min blocking (k + 1))
    (by omega) (by omega)
  have hpos : 0 < (chunkSizesGo blocking k (k + 1 - min blocking (k + 1))).length :=
    List.length_pos.mpr hne
  rw [chunkStartsFrom_length]
  omega

/-- The chunk row ranges tile `0 .. h-1` exactly: disjoint, consecutive,
and jointly covering, in order. -/
theorem chunkPuts_tiling (blocking h : Nat) (hb : 1 ≤ blocking) :
    ((chunkPuts blocking h).flatMap fun sk => (List.range sk.2).map (sk.1 + ·)) =
      List.range h := by
  unfold chunkPuts
  rw [chunkStartsFrom_flatten, chunkSizes_sum blocking h hb, ← List.range_eq_range']

/-- The blits of the general path are exactly one per chunk, at the chunk's
start offset. -/
theorem filterMap_putOf_generalEvents (c : ConvId) (x y : Int) (w : Nat) :
    ∀ chunks : List (Nat × Nat),
      (generalEvents c x y w chunks).filterMap putOf =
        chunks.map fun sk => (x, y + (sk.1 : Int), w, sk.2) := by
  intro chunks
  induction chunks with
  | nil => rfl
  | cons sk rest ih =>
    simp only [generalEvents, List.flatMap_cons, List.map_cons] at *
    rw [List.filterMap_append, ih, List.filterMap_append]
    simp [List.filterMap_map, putOf, Function.comp]

/-- A line size computed from a zero-width row is zero. -/
theorem linesize_zero_width (n bpp : Nat) :
    (0 * bpp + (n - 1)) / n * n / STORESIZE = 0 := by
  rcases Nat.eq_zero_or_pos n with h0 | h1
  · subst h0
    simp
  · have h2 : (0 * bpp + (n - 1)) / n = 0 := by
      apply Nat.div_eq_of_lt
      omega
    rw [h2]
    simp [STORESIZE]

/-- Counterexample for claim C7 as stated: a buffer-mode 349525×3 draw on
the 24-bit display is fast-path eligible (rgb converter, delta 3, linedelta
1048576 a multiple of the scanline unit 4); its line size gives working-buffer
row capacity 1 < height 3, yet the engine emits no `XPutImage` at all — the
missing-blit bug of claim C8 — instead of multiple tiling blits. -/
theorem claim_C7_cex :
    1 ≤ MAXBUFFER / ((349525 * 3 + (4 - 1)) / 4 * 4 / STORESIZE) ∧
    MAXBUFFER / ((349525 * 3 + (4 - 1)) / 4 * 4 / STORESIZE) < 3 ∧
    (1048576 : Int).emod 4 = 0 ∧
    (innards gInitRGB vRGB clipBig (some (fun _ => 7)) 0 0 349525 3 3 1048576 false none
        false).map (fun p => p.2.filterMap putOf) = some [] :=
  ⟨by decide, by decide, by decide, by decide⟩

/-- Claim C7 (amended): when the clipped height `h` exceeds the
working-buffer row capacity `B = MAXBUFFER / linesize ≥ 1` and the draw goes
through the conversion path — any callback-mode draw, and any buffer-mode
draw not eligible for the RGB fast path — the engine issues one `XPutImage`
per chunk, the chunks' row ranges tile `0..h-1` exactly with no gaps or
overlaps, there are at least two of them, and each is submitted at vertical
offset `Y + dy + start`.  A buffer-mode draw that is fast-path eligible
(rgb converter, delta 3, linedelta a multiple of the scanline unit) instead
issues no blit at all, per the missing-`XPutImage` bug of claim C8. -/
theorem claim_C7 (g g2 : GState) (v : Visual) (clipr : Rect)
    (buf : Option (Int → Nat)) (cb : Option (Int → Int → Nat → Int → Nat))
    (X Y W H delta l : Int) (mono : Bool)
    (evs : List Ev) (L B w h : Nat)
    (hbpp : g.bytes_per_pixel ≠ 0)
    (hsrc : buf.isSome = true ∨ cb.isSome = true)
    (hnofast : ¬(buf.isSome = true ∧ (if mono then g.mono_conv else g.conv) = ConvId.rgb ∧
        delta = 3 ∧ (if l = 0 then W * |delta| else l).emod (g.scanline_n : Int) = 0))
    (hw : w = (clip_box X Y W H clipr).2.2.1.toNat)
    (hh : h = (clip_box X Y W H clipr).2.2.2.toNat)
    (hL : L = (w * g.bytes_per_pixel + (g.scanline_n - 1)) / g.scanline_n * g.scanline_n
        / STORESIZE)
    (hB : B = MAXBUFFER / L)
    (hcap : 1 ≤ B)
    (hbig : B < h)
    (hrun : innards g v clipr buf X Y W H delta l mono cb false = some (g2, evs)) :
    evs.filterMap putOf = (chunkPuts B h).map
      (fun sk => (X + ((clip_box X Y W H clipr).1 - X),
        Y + ((clip_box X Y W H clipr).2.1 - Y) + (sk.1 : Int), w, sk.2)) ∧
    ((chunkPuts B h).flatMap fun sk => (List.range sk.2).map (sk.1 + ·)) = List.range h ∧
    2 ≤ (chunkPuts B h).length := by
  have hL1 : 1 ≤ L := by
    rcases Nat.eq_zero_or_pos L with h0 | h1
    · rw [h0] at hB
      simp [Nat.div_zero] at hB
      omega
    · exact h1
  have hw' : 0 < (clip_box X Y W H clipr).2.2.1 := by
    by_contra hcon
    have : (clip_box X Y W H clipr).2.2.1.toNat = 0 := by omega
    rw [this] at hw
    rw [hw] at hL
    rw [linesize_zero_width] at hL
    omega
  have hh' : 0 < (clip_box X Y W H clipr).2.2.2 := by omega
  have hlin : L * h > MAXBUFFER := by
    have hx := (Nat.div_lt_iff_lt_mul hL1).mp (hB ▸ hbig)
    show MAXBUFFER < L * h
    rw [Nat.mul_comm]
    exact hx
  have hnullneg : ¬(buf.isNone = true ∧ cb.isNone = true) := by
    rcases hsrc with hs | hs <;> intro hcon <;> rcases hcon with ⟨h1, h2⟩
    · rw [Option.isNone_iff_eq_none] at h1
      rw [h1] at hs
      exact Bool.noConfusion hs
    · rw [Option.isNone_iff_eq_none] at h2
      rw [h2] at hs
      exact Bool.noConfusion hs
  refine ⟨?_, chunkPuts_tiling B h hcap, chunkPuts_length_two B h hcap hbig⟩
  simp only [innards, hbpp, if_false, restoreAlpha, eq_self_iff_true, if_true,
    ite_true, ite_false, Option.isSome_none, Option.isNone_none, Option.isNone_some,
    Bool.false_eq_true, false_and, and_false, Bool.true_eq_false] at hrun
  have hclipneg : ¬((clip_box X Y W H clipr).2.2.1 ≤ 0 ∨
      (clip_box X Y W H clipr).2.2.2 ≤ 0) := by omega
  rw [if_neg hclipneg] at hrun
  rw [if_neg hnofast] at hrun
  rw [if_neg hnullneg] at hrun
  have hcond : ((clip_box X Y W H clipr).2.2.1.toNat * g.bytes_per_pixel +
      (g.scanline_n - 1)) / g.scanline_n * g.scanline_n / STORESIZE *
      (clip_box X Y W H clipr).2.2.2.toNat > MAXBUFFER := by
    rw [← hw, ← hh, ← hL]
    exact hlin
  rw [if_pos hcond] at hrun
  rw [Option.some.injEq, Prod.mk.injEq] at hrun
  rw [← hrun.2]
  rw [← hw, ← hh, ← hL, ← hB]
  exact filterMap_putOf_generalEvents _ _ _ _ _

/-- Witness for claim C7: a 349525×3 callback-mode draw on the 24-bit
display has line size 262144 STORETYPE units, so only one row fits in the
working buffer (capacity 1 < height 3); the three blits tile rows 0..2. -/
theorem claim_C7_witness :
    ([Ev.convRow ConvId.rgb 0, Ev.putImage 0 0 349525 1, Ev.convRow ConvId.rgb 1,
      Ev.putImage 0 1 349525 1, Ev.convRow ConvId.rgb 2,
      Ev.putImage 0 2 349525 1] : List Ev).filterMap putOf =
      (chunkPuts 1 3).map
        (fun sk => ((0 : Int) + ((clip_box 0 0 349525 3 clipBig).1 - 0),
          (0 : Int) + ((clip_box 0 0 349525 3 clipBig).2.1 - 0) + (sk.1 : Int),
          349525, sk.2)) ∧
    ((chunkPuts 1 3).flatMap fun sk => (List.range sk.2).map (sk.1 + ·)) =
      List.range 3 ∧
    2 ≤ (chunkPuts 1 3).length :=
  claim_C7 gInitRGB
    ⟨3, 4, ConvId.rgb, ConvId.rrr, 24, 24, false, 349525, 3, 262144, ⟨false, 0, 0, 0⟩⟩
    vRGB clipBig none (some (fun _ _ _ _ => 7)) 0 0 349525 3 3 0 false
    [Ev.convRow ConvId.rgb 0, Ev.putImage 0 0 349525 1, Ev.convRow ConvId.rgb 1,
      Ev.putImage 0 1 349525 1, Ev.convRow ConvId.rgb 2, Ev.putImage 0 2 349525 1]
    262144 1 349525 3 (by decide) (Or.inr (by decide)) (by decide) (by decide)
    (by decide) (by decide) (by decide) (by decide) (by decide) (by decide)

end FltkImage
